import Mathlib

/-!
Verification of the `PlaceholderReplacerByID` repository (single source file
`PlaceholderReplacerByID.py`).  The Python code is shallowly embedded below:
strings are `String` / `List Char`, dynamically typed inputs are `PyVal`,
Python exceptions are the `Except Unit` monad, and every operation that the
source performs (splitting, joining, `int()` conversion, the regex split on
`[;,\s]+`, dictionary construction and lookup, literal `str.replace`) is
given an executable Lean definition translated from the source.

Modelling notes, documented once here:
* machine strings are modelled over their character lists; Python whitespace
  and `str.isdigit` are modelled for the ASCII range (`Char.isWhitespace`,
  `Char.isDigit`), which is faithful for all inputs used in the theorems;
* Python `float` values are represented by `Option Int`: `some n` is a
  finite float whose `int()` truncation is `n`, `none` is a NaN/infinite
  float on which `int()` raises;
* `ast.literal_eval` (a Python standard-library call, whose whole use site
  is wrapped in `try/except` by the source) is modelled restricted to flat
  list literals of signed numeric atoms and quoted string atoms; every other
  input is treated as raising, which the source catches and turns into a
  fall-through to the delimiter-based parse.
-/

/-- Python's `None`/int/float/str/list/tuple universe for the dynamically
typed `id_sequences` input of `parse_list`.  A float is `some n` when it is
finite with `int()` truncation `n`, and `none` when `int()` on it raises
(NaN or an infinity). -/
inductive PyVal where
  | none : PyVal
  | int (n : Int) : PyVal
  | float (v : Option Int) : PyVal
  | str (s : String) : PyVal
  | list (xs : List PyVal) : PyVal
  | tuple (xs : List PyVal) : PyVal

/-- Entries of the per-slot identifier lists built by `process`: Python ints
or Python strings (the code stores the literal string "NOT_FOUND"). -/
inductive IdVal where
  | int (n : Int) : IdVal
  | str (s : List Char) : IdVal
deriving DecidableEq

/-- The character list of the sentinel literal "NOT_FOUND". -/
def notFoundChars : List Char := "NOT_FOUND".data

/-- Python `str.strip()` on the ASCII range: drop whitespace at both ends. -/
def trimL (s : List Char) : List Char :=
  ((s.dropWhile Char.isWhitespace).reverse.dropWhile Char.isWhitespace).reverse

/-- Python `str.isdigit` on the ASCII range: nonempty and all decimal digits. -/
def pyIsDigitL (s : List Char) : Bool :=
  !s.isEmpty && s.all Char.isDigit

/-- Numeric value of a digit string (most significant first). -/
def digitsVal (ds : List Char) : Int :=
  ds.foldl (fun a ch => a * 10 + Int.ofNat (ch.toNat - 48)) 0

/-- Core of Python `int(<str>)` after stripping: an optional single sign
followed by a nonempty run of digits; anything else raises (`none`). -/
def intCore : List Char → Option Int
  | [] => Option.none
  | d :: rest =>
    if d == '-' then
      if !rest.isEmpty && rest.all Char.isDigit then some (-(digitsVal rest))
      else Option.none
    else if d == '+' then
      if !rest.isEmpty && rest.all Char.isDigit then some (digitsVal rest)
      else Option.none
    else
      if (d :: rest).all Char.isDigit then some (digitsVal (d :: rest))
      else Option.none

/-- Python `int(<str>)`: the argument is stripped, then parsed. -/
def intOfChars (s : List Char) : Option Int :=
  intCore (trimL s)

/-- Python `int(<str>)` with its `ValueError` made explicit. -/
def intE (s : List Char) : Except Unit Int :=
  match intOfChars s with
  | some n => Except.ok n
  | Option.none => Except.error ()

/-- Python `int(x)` on a dynamically typed value, with `ValueError` and
`TypeError` made explicit. -/
def pyIntE : PyVal → Except Unit Int
  | PyVal.int n => Except.ok n
  | PyVal.float (some n) => Except.ok n
  | PyVal.float Option.none => Except.error ()
  | PyVal.str s => intE s.data
  | _ => Except.error ()

/-- Effectful map over a list in the `Except` monad, stopping at the first
failure: the model of a Python loop or comprehension that may raise. -/
def mapExcept (f : α → Except Unit β) : List α → Except Unit (List β)
  | [] => Except.ok []
  | a :: l =>
    match f a, mapExcept f l with
    | Except.ok b, Except.ok bs => Except.ok (b :: bs)
    | Except.error e, _ => Except.error e
    | _, Except.error e => Except.error e

/-- Option-valued map over a list, failing if any element fails. -/
def mapOpt (f : α → Option β) : List α → Option (List β)
  | [] => some []
  | a :: l =>
    match f a, mapOpt f l with
    | some b, some bs => some (b :: bs)
    | _, _ => Option.none

/-- Separator characters of the regex `[;,\s]+` used by `parse_list`. -/
def isSepChar (ch : Char) : Bool :=
  ch == ';' || ch == ',' || ch.isWhitespace

/-- Python `re.split(r"[;,\s]+", s)`: split on maximal runs of separator
characters, keeping the (possibly empty) leading and trailing pieces. -/
def splitRuns : List Char → List (List Char)
  | [] => [[]]
  | ch :: rest =>
    if isSepChar ch then
      match rest with
      | [] => [[], []]
      | c2 :: _ =>
        if isSepChar c2 then splitRuns rest
        else [] :: splitRuns rest
    else
      match splitRuns rest with
      | [] => [[ch]]
      | t :: ts => (ch :: t) :: ts

/-- Fuel-driven split of a string on a nonempty separator `c :: cs`,
left to right and non-overlapping, exactly as Python `str.split(sep)`.
The fuel is instantiated with the length of the input, which always
suffices; the fuel only exists to keep the recursion structural. -/
def splitFuel (c : Char) (cs : List Char) : Nat → List Char → List (List Char)
  | _, [] => [[]]
  | 0, x :: rest => [x :: rest]
  | fuel + 1, x :: rest =>
    if (c :: cs).isPrefixOf (x :: rest) then
      [] :: splitFuel c cs fuel (rest.drop cs.length)
    else
      match splitFuel c cs fuel rest with
      | [] => [[x]]
      | t :: ts => (x :: t) :: ts

/-- Python `s.split(sep)` for a nonempty separator (total wrapper). -/
def pySplitL (sep s : List Char) : List (List Char) :=
  match sep with
  | [] => [s]
  | c :: cs => splitFuel c cs s.length s

/-- Python `s.split(sep)` including the `ValueError` raised on an empty
separator. -/
def pySplitSep (sep s : List Char) : Except Unit (List (List Char)) :=
  match sep with
  | [] => Except.error ()
  | c :: cs => Except.ok (splitFuel c cs s.length s)

/-- Python `sep.join(parts)`. -/
def joinL (sep : List Char) : List (List Char) → List Char
  | [] => []
  | [p] => p
  | p :: ps => p ++ sep ++ joinL sep ps

/-- Fuel-driven core of Python `str.replace` with a nonempty pattern
`p :: ps`: replace all non-overlapping occurrences, left to right. -/
def replaceFuel (p : Char) (ps r : List Char) : Nat → List Char → List Char
  | _, [] => []
  | 0, x :: rest => x :: rest
  | fuel + 1, x :: rest =>
    if (p :: ps).isPrefixOf (x :: rest) then
      r ++ replaceFuel p ps r fuel (rest.drop ps.length)
    else
      x :: replaceFuel p ps r fuel rest

/-- Python `s.replace(pat, r)`; with an empty pattern Python interleaves the
replacement around every character. -/
def replaceL (s pat r : List Char) : List Char :=
  match pat with
  | [] => r ++ (s.map (fun ch => ch :: r)).flatten
  | p :: ps => replaceFuel p ps r s.length s

/-- Python `str.splitlines` (ASCII line breaks `\r\n`, `\r`, `\n`; a
trailing line break does not produce a final empty line). -/
def splitLinesAux (acc : List Char) : List Char → List (List Char)
  | [] => if acc.isEmpty then [] else [acc.reverse]
  | '\r' :: '\n' :: rest => acc.reverse :: splitLinesAux [] rest
  | '\r' :: rest => acc.reverse :: splitLinesAux [] rest
  | '\n' :: rest => acc.reverse :: splitLinesAux [] rest
  | ch :: rest => splitLinesAux (ch :: acc) rest

/-- Python `s.splitlines()`. -/
def pySplitLines (s : List Char) : List (List Char) :=
  splitLinesAux [] s

/-- Python `s.split(ch, 1)` when it yields two pieces; `none` models the
unpacking `ValueError` when the character does not occur. -/
def splitOnce (ch : Char) : List Char → Option (List Char × List Char)
  | [] => Option.none
  | x :: rest =>
    if x == ch then some ([], rest)
    else
      match splitOnce ch rest with
      | some (a, b) => some (x :: a, b)
      | Option.none => Option.none

/-- The single-quote character (used by the literal parser). -/
def quoteChar : Char := Char.ofNat 39

/-- The double-quote character (used by the literal parser). -/
def dquoteChar : Char := Char.ofNat 34

/-- One atom of a Python list literal: a possibly signed integer or float
token (signs may repeat, as Python's nested unary minus allows), or a
quoted string.  Returns `none` on anything else. -/
def parseAtom (t : List Char) : Option PyVal :=
  match trimL t with
  | [] => Option.none
  | q :: rest =>
    if q == quoteChar || q == dquoteChar then
      match rest.getLast? with
      | some q2 =>
        if q2 == q && !rest.isEmpty then some (PyVal.str (String.mk rest.dropLast))
        else Option.none
      | Option.none => Option.none
    else
      let u := q :: rest
      let isSign := fun (ch : Char) => ch == '-' || ch == '+' || ch == ' '
      let signs := u.takeWhile isSign
      let body := u.dropWhile isSign
      let neg := (signs.filter (fun ch => ch == '-')).length % 2 == 1
      let sgn : Int := if neg then -1 else 1
      if !body.isEmpty && body.all Char.isDigit then
        some (PyVal.int (sgn * digitsVal body))
      else
        let ip := body.takeWhile Char.isDigit
        let r2 := body.dropWhile Char.isDigit
        match r2 with
        | '.' :: fp =>
          if fp.all Char.isDigit && (!ip.isEmpty || !fp.isEmpty) then
            some (PyVal.float (some (sgn * digitsVal ip)))
          else Option.none
        | _ => Option.none

/-- Model of `ast.literal_eval` on a bracketed string (see the modelling
notes at the top of the file): a flat list literal of atoms.  The caller
has already checked the leading `[` and trailing `]`. -/
def literalEvalList (t : List Char) : Option PyVal :=
  let inner := (t.drop 1).dropLast
  if (trimL inner).isEmpty then some (PyVal.list [])
  else (mapOpt parseAtom (pySplitL [','] inner)).map PyVal.list

/-- The filter of the comprehension in the bracketed branch of
`parse_list`: `isinstance(x,(int,float)) or (isinstance(x,str) and
x.strip().lstrip('-').isdigit())`. -/
def bracketFilter : PyVal → Bool
  | PyVal.int _ => true
  | PyVal.float _ => true
  | PyVal.str s => pyIsDigitL ((trimL s.data).dropWhile (fun ch => ch == '-'))
  | _ => false

/-- The comprehension `[int(x) for x in parsed if ...]` of the bracketed
branch; it can raise (the source catches that and falls through). -/
def bracketComprehension (xs : List PyVal) : Except Unit (List Int) :=
  mapExcept pyIntE (xs.filter bracketFilter)

/-- The token filter of line 90 of the source:
`x.strip().lstrip('-').isdigit()`. -/
def lineTokOk (x : List Char) : Bool :=
  pyIsDigitL ((trimL x).dropWhile (fun ch => ch == '-'))

/-- The bracketed branch of `parse_list` (source lines 83-89): when the
stripped string is bracketed, run the literal evaluation and the int
comprehension; `none` is any exception inside the `try`, which makes the
source fall through to the delimiter-based parse of line 90. -/
def bracketBranch (t : List Char) : Option (List Int) :=
  if t.head? = some '[' ∧ t.getLast? = some ']' then
    match literalEvalList t with
    | some (PyVal.list xs) => (bracketComprehension xs).toOption
    | some (PyVal.tuple xs) => (bracketComprehension xs).toOption
    | _ => Option.none
  else Option.none

/-- Embedding of `PlaceholderReplacerByID.parse_list` (source lines 68-91).
Exceptions escaping the function are `Except.error`. -/
def parse_list (raw : PyVal) : Except Unit (List Int) :=
  match raw with
  | PyVal.none => Except.ok []
  | PyVal.list xs =>
    Except.ok (xs.filterMap (fun x => (pyIntE x).toOption))
  | PyVal.tuple xs =>
    Except.ok (xs.filterMap (fun x => (pyIntE x).toOption))
  | PyVal.int n => Except.ok [n]
  | PyVal.float (some n) => Except.ok [n]
  | PyVal.float Option.none => Except.error ()
  | PyVal.str s =>
    if s = "" then Except.ok []
    else
      match bracketBranch (trimL s.data) with
      | some out => Except.ok out
      | Option.none =>
        mapExcept intE ((splitRuns (trimL s.data)).filter lineTokOk)

/-- Embedding of `PlaceholderReplacerByID.parse_manual_ids` (source lines
93-102): split on `;`, strip each piece, keep pieces whose
`lstrip('-')` is all digits, convert with `int` (which can raise). -/
def parse_manual_ids (raw : String) : Except Unit (List Int) :=
  if raw = "" then Except.ok []
  else
    let parts := pySplitL [';'] (trimL raw.data)
    mapExcept intE ((parts.map trimL).filter
      (fun p => pyIsDigitL (p.dropWhile (fun ch => ch == '-'))))

/-- Python dictionary lookup `m.get(k, dflt)` over an insertion list whose
most recent insertions come first. -/
def dictGet (m : List (Int × List Char)) (k : Int) (dflt : List Char) : List Char :=
  match m.find? (fun pr => pr.1 == k) with
  | some pr => pr.2
  | Option.none => dflt

/-- `int()` of an identifier-list entry, as in `resolve_string`
(`int(first_id)` catching `ValueError`/`TypeError`). -/
def idIntE : IdVal → Except Unit Int
  | IdVal.int n => Except.ok n
  | IdVal.str s =>
    match intCore (trimL s) with
    | some n => Except.ok n
    | Option.none => Except.error ()

/-- Python `f"{val}"` for an identifier-list entry. -/
def idRepr : IdVal → List Char
  | IdVal.int n => (toString n).data
  | IdVal.str s => s

/-- Embedding of `PlaceholderReplacerByID.resolve_string` (source lines
105-123): guard on empty template or token, derive the replacement from
the first identifier, then literally replace all occurrences. -/
def resolve_string (num_list : List IdVal) (template : List Char)
    (artist_map : List (Int × List Char)) (placeholder_token : List Char) :
    List Char :=
  if template.isEmpty then template
  else if placeholder_token.isEmpty then template
  else
    let replacement :=
      match num_list with
      | [] => []
      | v :: _ =>
        match idIntE v with
        | Except.ok n => dictGet artist_map n []
        | Except.error _ => notFoundChars
    replaceL template placeholder_token replacement

/-- Overwrite the head of a slot with the mirrored identifier, creating a
one-element list when the slot was empty (loop body of lines 134-138). -/
def mirrorSlot (fid : IdVal) : List IdVal → List IdVal
  | [] => [fid]
  | _ :: t => fid :: t

/-- Embedding of `PlaceholderReplacerByID.mirror_first_id_across_slots`
(source lines 125-140). -/
def mirror_first_id_across_slots (id_lists : List (List IdVal)) (enable : Bool) :
    List (List IdVal) :=
  if !enable then id_lists
  else
    match id_lists with
    | [] => id_lists
    | [] :: _ => id_lists
    | (fid :: tl) :: rest => (fid :: tl) :: rest.map (mirrorSlot fid)

/-- Embedding of the artist-map construction of `process` (source lines
180-189); later duplicate keys are prepended so that `dictGet` sees the
last write first. -/
def buildArtistMap (tm : List Char) : List (Int × List Char) :=
  (pySplitLines tm).foldl
    (fun acc line =>
      let l := trimL line
      if l.isEmpty then acc
      else
        match splitOnce '_' l with
        | some (numPart, namePart) =>
          match intOfChars numPart with
          | some n => (n, trimL namePart) :: acc
          | Option.none => acc
        | Option.none => acc)
    []

/-- Padding of the parsed identifier sequence with `None` up to the slot
count (source lines 160-161 / 165-166). -/
def padSeq (seq : List Int) (n : Nat) : List (Option Int) :=
  seq.map some ++ List.replicate (n - seq.length) Option.none

/-- Per-slot wrapping of the padded sequence (source lines 168-170). -/
def mkIdLists (seqP : List (Option Int)) (n : Nat) : List (List IdVal) :=
  (seqP.take n).map (fun o =>
    match o with
    | some v => [IdVal.int v]
    | Option.none => [])

/-- Embedding of the auto-step block (source lines 205-208): slot `i` gets
head `base + i` and keeps the tail of its previous identifier list. -/
def autoStep (base : Int) (id_lists : List (List IdVal)) : List (List IdVal) :=
  id_lists.enum.map (fun pr => IdVal.int (base + Int.ofNat pr.1) :: pr.2.drop 1)

/-- Embedding of the mirror-first-prompt block (source lines 213-215). -/
def mirrorPrompts (parts : List (List Char)) : List (List Char) :=
  match parts with
  | [] => parts
  | h :: _ => List.replicate parts.length h

/-- Embedding of the manual-override block (source lines 222-230): every
slot is overwritten, with the forced value when present and the literal
sentinel otherwise. -/
def manualOverride (id_lists : List (List IdVal)) (forced : List Int) :
    List (List IdVal) :=
  (List.range id_lists.length).map (fun i =>
    match forced[i]? with
    | some v => [IdVal.int v]
    | Option.none => [IdVal.str notFoundChars])

/-- Per-slot resolution loop (source lines 235-238). -/
def resolveAll (id_lists : List (List IdVal)) (parts : List (List Char))
    (artist_map : List (Int × List Char)) (tok : List Char) : List (List Char) :=
  (id_lists.zip parts).map (fun pr => resolve_string pr.1 pr.2 artist_map tok)

/-- Embedding of the primary-identifier display loop body (source lines
246-254); `int(val)` at line 250 is not guarded, so this can raise. -/
def primaryEntry (m : List (Int × List Char)) (lst : List IdVal) :
    Except Unit (List Char) :=
  match lst with
  | [] => Except.ok notFoundChars
  | v :: _ =>
    if v = IdVal.str notFoundChars then Except.ok notFoundChars
    else
      match idIntE v with
      | Except.ok n => Except.ok (idRepr v ++ '_' :: dictGet m n notFoundChars)
      | Except.error e => Except.error e

/-- All intermediate values of one `process` invocation, in source order. -/
structure ProcState where
  strParts0 : List (List Char)
  seqPadded : List (Option Int)
  idLists0 : List (List IdVal)
  idListsMirrored : List (List IdVal)
  artistMap : List (Int × List Char)
  idListsStepped : List (List IdVal)
  promptParts : List (List Char)
  idListsFinal : List (List IdVal)
  resolved : List (List Char)
deriving DecidableEq

/-- The pure middle of `process` (source lines 150-238) once the three
fallible inputs (template split, parsed identifier sequence, parsed manual
overrides) are available.  The source parses and pads the identifier
sequence twice (lines 159-166) with identical results, and applies the
mirroring helper twice (lines 172 and 175); both repetitions are kept. -/
def stagesCore (strParts0 : List (List Char)) (seq0 forced : List Int)
    (term_mappings : String)
    (mirror_first_prompt auto_step_ids manual_ids mirror_first_id : Bool)
    (increment_base : Int) (placeholder_token : String) : ProcState :=
  let numSlots := strParts0.length
  let seqPadded := padSeq seq0 numSlots
  let idLists0 := mkIdLists seqPadded numSlots
  let idListsM :=
    mirror_first_id_across_slots
      (mirror_first_id_across_slots idLists0 mirror_first_id) mirror_first_id
  let artistMap := buildArtistMap term_mappings.data
  -- `int(increment_base)` on the INT-typed input always succeeds
  let idListsS := if auto_step_ids then autoStep increment_base idListsM else idListsM
  let promptParts := if mirror_first_prompt then mirrorPrompts strParts0 else strParts0
  let idListsF := if manual_ids then manualOverride idListsS forced else idListsS
  let resolved := resolveAll idListsF promptParts artistMap placeholder_token.data
  ⟨strParts0, seqPadded, idLists0, idListsM, artistMap, idListsS,
    promptParts, idListsF, resolved⟩

/-- The stateful middle of `process` (source lines 150-238).  The fallible
steps happen in source order (split at line 153, `parse_list` at line 164,
`parse_manual_ids` at line 220 with only pure code in between), so
sequencing them first is observationally identical: all exceptions carry
the same `()` payload. -/
def stages (id_sequences : PyVal) (prompt_list term_mappings : String)
    (mirror_first_prompt auto_step_ids manual_ids mirror_first_id : Bool)
    (manual_ids_list : String) (increment_base : Int)
    (placeholder_token prompt_delimiter : String) : Except Unit ProcState := do
  let strParts0 ← pySplitSep prompt_delimiter.data prompt_list.data
  let seq0 ← parse_list id_sequences
  let forced ← parse_manual_ids manual_ids_list
  Except.ok (stagesCore strParts0 seq0 forced term_mappings
    mirror_first_prompt auto_step_ids manual_ids mirror_first_id
    increment_base placeholder_token)

/-- Python `f"{b}"` for a bool. -/
def pyBoolRepr (b : Bool) : List Char :=
  if b then "True".data else "False".data

/-- Python `f"{o}"` for an optional int (`None` when absent). -/
def optIntRepr : Option Int → List Char
  | some n => (toString n).data
  | Option.none => "None".data

/-- Python `f"{seq}"` for the padded identifier sequence. -/
def seqRepr (seq : List (Option Int)) : List Char :=
  '[' :: (joinL ", ".data (seq.map optIntRepr) ++ [']'])

/-- The debug trace of `process` (source lines 191-195, 208, 230, 256). -/
def debugOf (numSlots : Nat) (seqPadded : List (Option Int))
    (mirror_first_prompt auto_step_ids manual_ids : Bool)
    (manual_ids_list : String) (increment_base : Int) : String :=
  let base : List (List Char) :=
    [ "num_slots=".data ++ (toString numSlots).data,
      "id_sequences=".data ++ seqRepr seqPadded,
      "mirror_first_prompt=".data ++ pyBoolRepr mirror_first_prompt
        ++ "; auto_step_ids=".data ++ pyBoolRepr auto_step_ids
        ++ "; manual_ids=".data ++ pyBoolRepr manual_ids,
      "manual_ids_list=".data ++ manual_ids_list.data ]
  let withAuto :=
    if auto_step_ids then
      base ++ ["auto_step_ids applied with base=".data ++ (toString increment_base).data]
    else base
  let withManual :=
    if manual_ids then
      withAuto ++ ["SAFE manual_ids override applied (literal NOT_FOUND).".data]
    else withAuto
  String.mk (joinL ['\n'] withManual)

/-- The fixed output separator `;;;;;` of the resolved prompts. -/
def fiveSemis : List Char := [';', ';', ';', ';', ';']

/-- Embedding of `PlaceholderReplacerByID.process` (source lines 145-256).
The returned triple is `(resolved_prompts, debug_info, primary_ids)`;
`Except.error` is a Python exception escaping the entry point. -/
def process (id_sequences : PyVal) (prompt_list term_mappings : String)
    (mirror_first_prompt auto_step_ids manual_ids mirror_first_id : Bool)
    (manual_ids_list : String) (increment_base : Int)
    (placeholder_token prompt_delimiter : String) :
    Except Unit (String × String × String) := do
  let st ← stages id_sequences prompt_list term_mappings
    mirror_first_prompt auto_step_ids manual_ids mirror_first_id
    manual_ids_list increment_base placeholder_token prompt_delimiter
  let primary ← mapExcept (primaryEntry st.artistMap) st.idListsFinal
  Except.ok
    (String.mk (joinL fiveSemis st.resolved),
     debugOf st.strParts0.length st.seqPadded
       mirror_first_prompt auto_step_ids manual_ids manual_ids_list increment_base,
     String.mk (joinL [';'] primary))

/-! ## General lemmas about the embedded primitives -/

theorem mirrorSlot_idem (fid : IdVal) (l : List IdVal) :
    mirrorSlot fid (mirrorSlot fid l) = mirrorSlot fid l := by
  cases l <;> rfl

theorem mirrorSlot_head (fid : IdVal) (l : List IdVal) :
    (mirrorSlot fid l).head? = some fid := by
  cases l <;> rfl

theorem mapExcept_ok_of (f : α → Except Unit β) (l : List α)
    (h : ∀ a ∈ l, ∃ b, f a = Except.ok b) :
    ∃ bs, mapExcept f l = Except.ok bs := by
  induction l with
  | nil => exact ⟨[], rfl⟩
  | cons a t ih =>
    obtain ⟨b, hb⟩ := h a (List.mem_cons_self a t)
    obtain ⟨bs, hbs⟩ := ih (fun x hx => h x (List.mem_cons_of_mem a hx))
    exact ⟨b :: bs, by simp [mapExcept, hb, hbs]⟩

theorem mapExcept_eq_map (f : α → Except Unit β) (g : α → β) (l : List α)
    (h : ∀ a ∈ l, f a = Except.ok (g a)) :
    mapExcept f l = Except.ok (l.map g) := by
  induction l with
  | nil => rfl
  | cons a t ih =>
    have ha := h a (List.mem_cons_self a t)
    have ht := ih (fun x hx => h x (List.mem_cons_of_mem a hx))
    simp [mapExcept, ha, ht]

/-! ## C9: the mirror-first-identifier step is idempotent -/

/-- C9: applying the mirror-first-identifier step twice (with the toggle
enabled) yields the same per-slot identifier lists as applying it once. -/
theorem c9_mirror_idempotent (id_lists : List (List IdVal)) :
    mirror_first_id_across_slots (mirror_first_id_across_slots id_lists true) true
      = mirror_first_id_across_slots id_lists true := by
  match id_lists with
  | [] => rfl
  | [] :: rest => rfl
  | (fid :: tl) :: rest =>
    show (fid :: tl) :: (rest.map (mirrorSlot fid)).map (mirrorSlot fid)
        = (fid :: tl) :: rest.map (mirrorSlot fid)
    rw [List.map_map]
    have hcomp : mirrorSlot fid ∘ mirrorSlot fid = mirrorSlot fid :=
      funext (mirrorSlot_idem fid)
    rw [hcomp]

/-! ## C10: mirroring with an empty first slot changes nothing -/

/-- C10: if the mirror toggle is enabled but the list of slots is empty or
slot 0's identifier list is empty, the mirroring step returns the identifier
lists unchanged. -/
theorem c10_mirror_empty_first_noop (id_lists : List (List IdVal))
    (h : id_lists = [] ∨ id_lists.head? = some []) :
    mirror_first_id_across_slots id_lists true = id_lists := by
  rcases h with h | h
  · subst h; rfl
  · match id_lists, h with
    | [] :: rest, _ => rfl

theorem c10_mirror_empty_first_noop_witness :
    (([[], [IdVal.int 5]] : List (List IdVal)) = []
      ∨ ([[], [IdVal.int 5]] : List (List IdVal)).head? = some [])
    ∧ mirror_first_id_across_slots [[], [IdVal.int 5]] true = [[], [IdVal.int 5]] :=
  ⟨Or.inr rfl, c10_mirror_empty_first_noop _ (Or.inr rfl)⟩

/-! ## C6: mirroring propagates slot 0's primary identifier -/

/-- C6: when the mirror toggle is enabled and slot 0 has a primary
identifier, then after the mirroring step every slot's primary identifier
(the head of its identifier list) equals slot 0's primary identifier. -/
theorem c6_mirror_primary_uniform (fid : IdVal) (tl : List IdVal)
    (rest : List (List IdVal)) (i : Nat)
    (hi : i < ((fid :: tl) :: rest).length) :
    ∃ l, (mirror_first_id_across_slots ((fid :: tl) :: rest) true)[i]? = some l
      ∧ l.head? = some fid := by
  show ∃ l, ((fid :: tl) :: rest.map (mirrorSlot fid))[i]? = some l ∧ l.head? = some fid
  match i with
  | 0 => exact ⟨fid :: tl, by simp, rfl⟩
  | k + 1 =>
    have hk : k < rest.length := by
      simpa [Nat.succ_lt_succ_iff] using hi
    refine ⟨mirrorSlot fid rest[k], ?_, mirrorSlot_head fid _⟩
    simp [List.getElem?_map, List.getElem?_eq_getElem hk]

theorem c6_mirror_primary_uniform_witness :
    (1 : Nat) < ([[IdVal.int 3], [IdVal.int 9]] : List (List IdVal)).length
    ∧ ∃ l, (mirror_first_id_across_slots [[IdVal.int 3], [IdVal.int 9]] true)[1]? = some l
        ∧ l.head? = some (IdVal.int 3) :=
  ⟨by decide, c6_mirror_primary_uniform (IdVal.int 3) [] [[IdVal.int 9]] 1 (by decide)⟩

/-! ## C7: the auto-step block sets slot i's primary to base + i -/

/-- C7: after the auto-step block with base `B`, slot `i`'s identifier list
has head `B + i` and keeps the non-primary tail of its previous list; in
particular its primary identifier is `B + i`.  Moreover, when the auto-step
toggle is on and the manual-override toggle is off, the identifier lists at
resolution time are exactly the auto-stepped ones (no step between the
auto-step block and resolution changes them). -/
theorem c7_auto_step_primary (base : Int) (id_lists : List (List IdVal))
    (i : Nat) (l : List IdVal) (h : id_lists[i]? = some l) :
    (autoStep base id_lists)[i]? = some (IdVal.int (base + Int.ofNat i) :: l.drop 1)
    ∧ ∀ (ps : List (List Char)) (s0 f : List Int) (tm : String) (b1 b4 : Bool)
        (tok : String),
        (stagesCore ps s0 f tm b1 true false b4 base tok).idListsFinal
          = autoStep base (stagesCore ps s0 f tm b1 true false b4 base tok).idListsMirrored := by
  constructor
  · unfold autoStep
    rw [List.getElem?_map, List.getElem?_enum, h]
    rfl
  · intro ps s0 f tm b1 b4 tok
    rfl

theorem c7_auto_step_primary_witness :
    ([[IdVal.int 7, IdVal.int 8], []] : List (List IdVal))[1]? = some []
    ∧ (autoStep 10 [[IdVal.int 7, IdVal.int 8], []])[1]?
        = some [IdVal.int (10 + Int.ofNat 1)] :=
  ⟨rfl, (c7_auto_step_primary 10 [[IdVal.int 7, IdVal.int 8], []] 1 [] rfl).1⟩

/-! ## C4: the manual-override block -/

/-- C4: when the manual-ids toggle fires, slot `i` is overwritten with the
single-element list holding the `i`-th integer parsed from
`manual_ids_list` when that entry exists, and with the single-element
sentinel list otherwise — independently of the slot's previous contents
(any prior mirroring or auto-stepping). -/
theorem c4_manual_override_spec (id_lists : List (List IdVal))
    (manual_ids_list : String) (forced : List Int)
    (hf : parse_manual_ids manual_ids_list = Except.ok forced)
    (i : Nat) (hi : i < id_lists.length) :
    (manualOverride id_lists forced)[i]?
      = some (match forced[i]? with
              | some v => [IdVal.int v]
              | Option.none => [IdVal.str notFoundChars]) := by
  unfold manualOverride
  rw [List.getElem?_map, List.getElem?_range hi]
  rfl

theorem c4_manual_override_spec_witness :
    parse_manual_ids "4;5" = Except.ok [4, 5]
    ∧ (2 : Nat) < ([[IdVal.int 1], [IdVal.int 2], [IdVal.int 3]] : List (List IdVal)).length
    ∧ (manualOverride [[IdVal.int 1], [IdVal.int 2], [IdVal.int 3]] [4, 5])[2]?
        = some [IdVal.str notFoundChars] :=
  ⟨rfl, by decide,
    c4_manual_override_spec [[IdVal.int 1], [IdVal.int 2], [IdVal.int 3]] "4;5" [4, 5] rfl 2 (by decide)⟩

/-! ## C5: the per-slot resolver -/

/-- C5: `resolve_string` returns the template unchanged when the template or
the token is empty; otherwise it replaces all literal occurrences of the
token with: the mapped name of the first identifier (empty when the key is
absent, since `dictGet` defaults to the empty string) when its integer
conversion succeeds, the sentinel literal when the conversion fails (in
particular when the entry is the sentinel string), and the empty string
when the identifier list is empty. -/
theorem c5_resolve_string_spec (num_list : List IdVal) (template tok : List Char)
    (m : List (Int × List Char)) :
    (template = [] → resolve_string num_list template m tok = template)
    ∧ (tok = [] → resolve_string num_list template m tok = template)
    ∧ (template ≠ [] → tok ≠ [] →
        ((num_list = [] →
            resolve_string num_list template m tok = replaceL template tok [])
         ∧ (∀ v t n, num_list = v :: t → idIntE v = Except.ok n →
              resolve_string num_list template m tok
                = replaceL template tok (dictGet m n []))
         ∧ (∀ v t, num_list = v :: t → idIntE v = Except.error () →
              resolve_string num_list template m tok
                = replaceL template tok notFoundChars))) := by
  have hempty : ∀ l : List Char, l ≠ [] → l.isEmpty = false := by
    intro l hl
    cases l with
    | nil => exact absurd rfl hl
    | cons a t => rfl
  refine ⟨?_, ?_, ?_⟩
  · intro h; subst h; rfl
  · intro h; subst h
    unfold resolve_string
    split
    · rfl
    · rfl
  · intro h1 h2
    have e1 := hempty _ h1
    have e2 := hempty _ h2
    refine ⟨?_, ?_, ?_⟩
    · intro h; subst h
      simp [resolve_string, e1, e2]
    · intro v t n h hv; subst h
      simp [resolve_string, e1, e2, hv]
    · intro v t h hv; subst h
      simp [resolve_string, e1, e2, hv]

theorem c5_resolve_string_spec_witness :
    ('a' :: "[a1]".data ≠ []) ∧ ("[a1]".data ≠ ([] : List Char))
    ∧ ([IdVal.int 5] : List IdVal) = IdVal.int 5 :: []
    ∧ idIntE (IdVal.int 5) = Except.ok 5
    ∧ resolve_string [IdVal.int 5] ('a' :: "[a1]".data) [(5, ['X'])] "[a1]".data
        = replaceL ('a' :: "[a1]".data) "[a1]".data (dictGet [(5, ['X'])] 5 []) :=
  ⟨by decide, by decide, rfl, rfl,
    ((c5_resolve_string_spec [IdVal.int 5] ('a' :: "[a1]".data) "[a1]".data
        [(5, ['X'])]).2.2 (by decide) (by decide)).2.1 (IdVal.int 5) [] 5 rfl rfl⟩

/-! ## C2: parse_list and its failure modes -/

/-- A textual token that the filter of `parse_list` accepts although the
subsequent `int()` conversion fails: after stripping, two or more leading
minus signs followed only by digits. -/
def multiMinusTok (t : List Char) : Bool :=
  decide (2 ≤ ((trimL t).takeWhile (fun ch => ch == '-')).length)
    && pyIsDigitL ((trimL t).dropWhile (fun ch => ch == '-'))

/-- Inputs on which `parse_list` cannot raise: everything except a NaN or
infinite float, and except strings one of whose separator-split tokens has
multiple leading minus signs followed by digits. -/
def SafeRaw : PyVal → Bool
  | PyVal.float Option.none => false
  | PyVal.str s => (splitRuns (trimL s.data)).all (fun t => !multiMinusTok t)
  | _ => true

theorem intCore_cases (u ms ds : List Char) (hsplit : ms ++ ds = u)
    (hne : (!ds.isEmpty) = true) (hall : ds.all Char.isDigit = true)
    (hlen : ms.length ≤ 1) (hms : ∀ c ∈ ms, (c == '-') = true) :
    ∃ n, intCore u = some n := by
  subst hsplit
  rcases ms with _ | ⟨c, ms2⟩
  · rcases ds with _ | ⟨d, rest⟩
    · exact absurd hne (by decide)
    · have hd : d.isDigit = true := by
        rw [List.all_cons, Bool.and_eq_true] at hall
        exact hall.1
      have hdm : (d == '-') = false := by
        cases hdeq : (d == '-') with
        | false => rfl
        | true =>
          have hde : d = '-' := eq_of_beq hdeq
          rw [hde] at hd
          exact absurd hd (by decide)
      have hdp : (d == '+') = false := by
        cases hdeq : (d == '+') with
        | false => rfl
        | true =>
          have hde : d = '+' := eq_of_beq hdeq
          rw [hde] at hd
          exact absurd hd (by decide)
      refine ⟨digitsVal (d :: rest), ?_⟩
      show intCore (d :: rest) = _
      unfold intCore
      simp [hdm, hdp, hall]
  · rcases ms2 with _ | ⟨x, xs⟩
    · have hc : c = '-' := eq_of_beq (hms c (List.mem_cons_self c []))
      subst hc
      refine ⟨-(digitsVal ds), ?_⟩
      show intCore ('-' :: ds) = _
      unfold intCore
      simp [hne, hall]
    · exfalso
      rw [List.length_cons, List.length_cons] at hlen
      omega

theorem intE_ok_of_tok (t : List Char)
    (hfil : pyIsDigitL ((trimL t).dropWhile (fun ch => ch == '-')) = true)
    (hmm : multiMinusTok t = false) : ∃ n, intE t = Except.ok n := by
  have hlen : ((trimL t).takeWhile (fun ch => ch == '-')).length ≤ 1 := by
    unfold multiMinusTok at hmm
    rw [hfil, Bool.and_true] at hmm
    have h2 := of_decide_eq_false hmm
    omega
  unfold pyIsDigitL at hfil
  rw [Bool.and_eq_true] at hfil
  obtain ⟨hne, hall⟩ := hfil
  obtain ⟨n, hn⟩ := intCore_cases (trimL t) _ _
    (List.takeWhile_append_dropWhile _ _) hne hall hlen
    (fun c hc => by simpa using List.mem_takeWhile_imp hc)
  refine ⟨n, ?_⟩
  unfold intE intOfChars
  rw [hn]

/-- C2 counterexample: on the textual input "--5" the token filter accepts
the token (it strips every leading minus sign before the digit test) but
`int("--5")` then raises, so `parse_list` raises a `ValueError`. -/
theorem c2_counterexample_double_minus :
    parse_list (PyVal.str "--5") = Except.error () := rfl

/-- C2 (amended): `parse_list` never raises — unparseable input yields the
empty sequence, with whitespace, commas and semicolons as textual
separators — EXCEPT on a NaN/infinite float and except when a textual token
has two or more leading minus signs followed by digits, where the filter
accepts the token and the integer conversion then raises. -/
theorem c2_parse_list_total_of_safe (raw : PyVal) (h : SafeRaw raw = true) :
    ∃ l, parse_list raw = Except.ok l := by
  match raw with
  | PyVal.none => exact ⟨[], rfl⟩
  | PyVal.int n => exact ⟨[n], rfl⟩
  | PyVal.float (some n) => exact ⟨[n], rfl⟩
  | PyVal.float Option.none => exact absurd h (by simp [SafeRaw])
  | PyVal.list xs => exact ⟨_, rfl⟩
  | PyVal.tuple xs => exact ⟨_, rfl⟩
  | PyVal.str s =>
    by_cases hs : s = ""
    · subst hs; exact ⟨[], rfl⟩
    · simp only [parse_list]
      rw [if_neg hs]
      cases hb : bracketBranch (trimL s.data) with
      | some out => simp only [hb]; exact ⟨out, rfl⟩
      | none =>
        simp only [hb]
        apply mapExcept_ok_of
        intro a ha
        rw [List.mem_filter] at ha
        obtain ⟨hmem, hfil⟩ := ha
        have hsafe : multiMinusTok a = false := by
          unfold SafeRaw at h
          rw [List.all_eq_true] at h
          simpa using h a hmem
        exact intE_ok_of_tok a (by simpa [lineTokOk] using hfil) hsafe

theorem c2_parse_list_total_of_safe_witness :
    SafeRaw (PyVal.str "1, 2; -3") = true
    ∧ ∃ l, parse_list (PyVal.str "1, 2; -3") = Except.ok l :=
  ⟨by decide, c2_parse_list_total_of_safe _ (by decide)⟩

/-! ## The identifier-list invariant and C1 -/

theorem exceptBindOk (a : α) (f : α → Except Unit β) :
    (Except.ok a : Except Unit α) >>= f = f a := rfl

theorem exceptBindErr (u : Unit) (f : α → Except Unit β) :
    (Except.error u : Except Unit α) >>= f = Except.error u := rfl

theorem strData_ne_nil (s : String) (h : s ≠ "") : s.data ≠ [] := by
  intro hd
  exact h (String.ext (by rw [hd]))

theorem pySplitSep_ok (sep s : List Char) (h : sep ≠ []) :
    pySplitSep sep s = Except.ok (pySplitL sep s) := by
  cases sep with
  | nil => exact absurd rfl h
  | cons c cs => rfl

/-- An identifier-list entry reachable inside `process`: an integer or the
sentinel string. -/
def GoodVal (v : IdVal) : Prop :=
  (∃ n, v = IdVal.int n) ∨ v = IdVal.str notFoundChars

/-- Every entry of every slot is reachable-well-formed. -/
def GoodSlots (ll : List (List IdVal)) : Prop :=
  ∀ l ∈ ll, ∀ v ∈ l, GoodVal v

theorem goodSlots_mkIdLists (seqP : List (Option Int)) (n : Nat) :
    GoodSlots (mkIdLists seqP n) := by
  intro l hl v hv
  unfold mkIdLists at hl
  rw [List.mem_map] at hl
  obtain ⟨o, ho, rfl⟩ := hl
  cases o with
  | some w =>
    rw [List.mem_singleton] at hv
    exact Or.inl ⟨w, hv⟩
  | none => exact absurd hv (List.not_mem_nil v)

theorem goodSlots_mirror (ll : List (List IdVal)) (e : Bool) (h : GoodSlots ll) :
    GoodSlots (mirror_first_id_across_slots ll e) := by
  unfold mirror_first_id_across_slots
  cases e with
  | false => exact h
  | true =>
    cases ll with
    | nil => exact h
    | cons first rest =>
      cases first with
      | nil => exact h
      | cons fid tl =>
        show GoodSlots ((fid :: tl) :: rest.map (mirrorSlot fid))
        intro l hl v hv
        have hGfid : GoodVal fid :=
          h (fid :: tl) (List.mem_cons_self _ _) fid (List.mem_cons_self _ _)
        rcases List.mem_cons.mp hl with rfl | hl2
        · exact h _ (List.mem_cons_self _ _) v hv
        · rw [List.mem_map] at hl2
          obtain ⟨a, ha, rfl⟩ := hl2
          cases a with
          | nil =>
            rw [show mirrorSlot fid [] = [fid] from rfl, List.mem_singleton] at hv
            subst hv; exact hGfid
          | cons x t =>
            rw [show mirrorSlot fid (x :: t) = fid :: t from rfl] at hv
            rcases List.mem_cons.mp hv with rfl | hvt
            · exact hGfid
            · exact h _ (List.mem_cons_of_mem _ ha) v (List.mem_cons_of_mem x hvt)

theorem goodSlots_autoStep (b : Int) (ll : List (List IdVal)) (h : GoodSlots ll) :
    GoodSlots (autoStep b ll) := by
  intro l hl v hv
  unfold autoStep at hl
  rw [List.mem_map] at hl
  obtain ⟨pr, hpr, rfl⟩ := hl
  rcases List.mem_cons.mp hv with rfl | hv2
  · exact Or.inl ⟨_, rfl⟩
  · have hmem2 : pr.2 ∈ ll := by
      rcases pr with ⟨i, a⟩
      have h1 := List.mk_mem_enum_iff_getElem?.mp hpr
      obtain ⟨hlt, he⟩ := List.getElem?_eq_some.mp h1
      exact he ▸ List.getElem_mem hlt
    exact h _ hmem2 v (List.drop_subset 1 pr.2 hv2)

theorem goodSlots_manualOverride (ll : List (List IdVal)) (forced : List Int) :
    GoodSlots (manualOverride ll forced) := by
  intro l hl v hv
  unfold manualOverride at hl
  rw [List.mem_map] at hl
  obtain ⟨i, hi, rfl⟩ := hl
  cases hfi : forced[i]? with
  | some w =>
    rw [hfi, List.mem_singleton] at hv
    subst hv; exact Or.inl ⟨w, rfl⟩
  | none =>
    rw [hfi, List.mem_singleton] at hv
    subst hv; exact Or.inr rfl

theorem goodSlots_stagesCore (strParts0 : List (List Char)) (seq0 forced : List Int)
    (tm : String) (b1 b2 b3 b4 : Bool) (ib : Int) (tok : String) :
    GoodSlots (stagesCore strParts0 seq0 forced tm b1 b2 b3 b4 ib tok).idListsFinal := by
  have hbase : GoodSlots (mirror_first_id_across_slots
      (mirror_first_id_across_slots
        (mkIdLists (padSeq seq0 strParts0.length) strParts0.length) b4) b4) :=
    goodSlots_mirror _ _ (goodSlots_mirror _ _ (goodSlots_mkIdLists _ _))
  cases b3 with
  | true =>
    show GoodSlots (manualOverride _ forced)
    exact goodSlots_manualOverride _ _
  | false =>
    cases b2 with
    | true =>
      show GoodSlots (autoStep ib _)
      exact goodSlots_autoStep _ _ hbase
    | false =>
      show GoodSlots (mirror_first_id_across_slots _ b4)
      exact goodSlots_mirror _ _ (goodSlots_mirror _ _ (goodSlots_mkIdLists _ _))

theorem primaryEntry_ok_of_good (m : List (Int × List Char)) (l : List IdVal)
    (h : ∀ v ∈ l, GoodVal v) : ∃ s, primaryEntry m l = Except.ok s := by
  cases l with
  | nil => exact ⟨notFoundChars, rfl⟩
  | cons v t =>
    by_cases hv : v = IdVal.str notFoundChars
    · exact ⟨notFoundChars, by simp [primaryEntry, hv]⟩
    · rcases h v (List.mem_cons_self v t) with ⟨n, rfl⟩ | hnf
      · exact ⟨idRepr (IdVal.int n) ++ '_' :: dictGet m n notFoundChars,
          by simp [primaryEntry, idIntE]⟩
      · exact absurd hnf hv

theorem process_eq_ok (id_sequences : PyVal) (prompt_list term_mappings : String)
    (mirror_first_prompt auto_step_ids manual_ids mirror_first_id : Bool)
    (manual_ids_list : String) (increment_base : Int)
    (placeholder_token prompt_delimiter : String)
    (st : ProcState) (prim : List (List Char))
    (hst : stages id_sequences prompt_list term_mappings
      mirror_first_prompt auto_step_ids manual_ids mirror_first_id
      manual_ids_list increment_base placeholder_token prompt_delimiter
      = Except.ok st)
    (hprim : mapExcept (primaryEntry st.artistMap) st.idListsFinal
      = Except.ok prim) :
    process id_sequences prompt_list term_mappings
      mirror_first_prompt auto_step_ids manual_ids mirror_first_id
      manual_ids_list increment_base placeholder_token prompt_delimiter
      = Except.ok (String.mk (joinL fiveSemis st.resolved),
          debugOf st.strParts0.length st.seqPadded
            mirror_first_prompt auto_step_ids manual_ids manual_ids_list increment_base,
          String.mk (joinL [';'] prim)) := by
  unfold process
  rw [hst, exceptBindOk, hprim, exceptBindOk]

/-- C1 counterexample: with an empty `prompt_delimiter` the very first
split raises a `ValueError` that escapes the entry point, so `process`
does not return three strings. -/
theorem c1_counterexample_empty_delimiter :
    process PyVal.none "" "" false false false false "" 0 "[a1]" ""
      = Except.error () := rfl

/-- C1 (amended): `process` terminates with exactly three strings PROVIDED
the delimiter is nonempty and neither `parse_list` on `id_sequences` nor
`parse_manual_ids` on `manual_ids_list` raises; an empty delimiter or a
parser failure propagates out of the entry point. -/
theorem c1_process_total_of_safe (id_sequences : PyVal)
    (prompt_list term_mappings : String)
    (mirror_first_prompt auto_step_ids manual_ids mirror_first_id : Bool)
    (manual_ids_list : String) (increment_base : Int)
    (placeholder_token prompt_delimiter : String)
    (hd : prompt_delimiter ≠ "")
    (h2 : ∃ s, parse_list id_sequences = Except.ok s)
    (h3 : ∃ f, parse_manual_ids manual_ids_list = Except.ok f) :
    ∃ r d p, process id_sequences prompt_list term_mappings
      mirror_first_prompt auto_step_ids manual_ids mirror_first_id
      manual_ids_list increment_base placeholder_token prompt_delimiter
      = Except.ok (r, d, p) := by
  obtain ⟨seq0, h2⟩ := h2
  obtain ⟨forced, h3⟩ := h3
  have h1 : pySplitSep prompt_delimiter.data prompt_list.data
      = Except.ok (pySplitL prompt_delimiter.data prompt_list.data) :=
    pySplitSep_ok _ _ (strData_ne_nil _ hd)
  have hst : stages id_sequences prompt_list term_mappings
      mirror_first_prompt auto_step_ids manual_ids mirror_first_id
      manual_ids_list increment_base placeholder_token prompt_delimiter
      = Except.ok (stagesCore (pySplitL prompt_delimiter.data prompt_list.data)
          seq0 forced term_mappings
          mirror_first_prompt auto_step_ids manual_ids mirror_first_id
          increment_base placeholder_token) := by
    unfold stages
    rw [h1, exceptBindOk, h2, exceptBindOk, h3, exceptBindOk]
  have hgood := goodSlots_stagesCore (pySplitL prompt_delimiter.data prompt_list.data)
    seq0 forced term_mappings
    mirror_first_prompt auto_step_ids manual_ids mirror_first_id
    increment_base placeholder_token
  obtain ⟨prim, hprim⟩ := mapExcept_ok_of
    (primaryEntry (stagesCore (pySplitL prompt_delimiter.data prompt_list.data)
        seq0 forced term_mappings
        mirror_first_prompt auto_step_ids manual_ids mirror_first_id
        increment_base placeholder_token).artistMap)
    (stagesCore (pySplitL prompt_delimiter.data prompt_list.data)
        seq0 forced term_mappings
        mirror_first_prompt auto_step_ids manual_ids mirror_first_id
        increment_base placeholder_token).idListsFinal
    (fun l hl => primaryEntry_ok_of_good _ l (hgood l hl))
  exact ⟨_, _, _, process_eq_ok id_sequences prompt_list term_mappings
    mirror_first_prompt auto_step_ids manual_ids mirror_first_id
    manual_ids_list increment_base placeholder_token prompt_delimiter
    _ prim hst hprim⟩

theorem c1_process_total_of_safe_witness :
    (";" : String) ≠ ""
    ∧ (∃ s, parse_list PyVal.none = Except.ok s)
    ∧ (∃ f, parse_manual_ids "1;2" = Except.ok f)
    ∧ ∃ r d p, process PyVal.none "a;b" "5_X" true true true true "1;2" 3 "[a1]" ";"
        = Except.ok (r, d, p) :=
  ⟨by decide, ⟨[], rfl⟩, ⟨[1, 2], rfl⟩,
    c1_process_total_of_safe PyVal.none "a;b" "5_X" true true true true "1;2" 3 "[a1]" ";"
      (by decide) ⟨[], rfl⟩ ⟨[1, 2], rfl⟩⟩

/-! ## Split/join lemmas for C3 -/

theorem isPrefixOf_self_app (l t : List Char) : l.isPrefixOf (l ++ t) = true := by
  induction l with
  | nil => simp [List.isPrefixOf]
  | cons a as ih => simp [List.isPrefixOf, ih]

theorem splitFuel_congr (c : Char) (cs : List Char) :
    ∀ f1 f2 s, s.length ≤ f1 → s.length ≤ f2 →
      splitFuel c cs f1 s = splitFuel c cs f2 s := by
  intro f1
  induction f1 with
  | zero =>
    intro f2 s h1 h2
    have hs : s = [] := List.eq_nil_of_length_eq_zero (Nat.le_zero.mp h1)
    subst hs
    cases f2 <;> rfl
  | succ k ih =>
    intro f2 s h1 h2
    cases s with
    | nil => cases f2 <;> rfl
    | cons x rest =>
      cases f2 with
      | zero => rw [List.length_cons] at h2; omega
      | succ m =>
        rw [List.length_cons] at h1 h2
        by_cases hp : (c :: cs).isPrefixOf (x :: rest) = true
        · rw [show splitFuel c cs (k + 1) (x :: rest)
              = [] :: splitFuel c cs k (rest.drop cs.length) from by
                simp [splitFuel, hp],
            show splitFuel c cs (m + 1) (x :: rest)
              = [] :: splitFuel c cs m (rest.drop cs.length) from by
                simp [splitFuel, hp]]
          rw [ih m (rest.drop cs.length)
            (by rw [List.length_drop]; omega) (by rw [List.length_drop]; omega)]
        · rw [show splitFuel c cs (k + 1) (x :: rest)
              = (match splitFuel c cs k rest with
                 | [] => [[x]]
                 | t :: ts => (x :: t) :: ts) from by simp [splitFuel, hp],
            show splitFuel c cs (m + 1) (x :: rest)
              = (match splitFuel c cs m rest with
                 | [] => [[x]]
                 | t :: ts => (x :: t) :: ts) from by simp [splitFuel, hp]]
          rw [ih m rest (by omega) (by omega)]

theorem splitFuel_ne_nil (c : Char) (cs : List Char) (f : Nat) (s : List Char) :
    splitFuel c cs f s ≠ [] := by
  cases s with
  | nil => cases f <;> simp [splitFuel]
  | cons x rest =>
    cases f with
    | zero => simp [splitFuel]
    | succ k =>
      by_cases hp : (c :: cs).isPrefixOf (x :: rest) = true
      · simp [splitFuel, hp]
      · rw [show splitFuel c cs (k + 1) (x :: rest)
            = (match splitFuel c cs k rest with
               | [] => [[x]]
               | t :: ts => (x :: t) :: ts) from by simp [splitFuel, hp]]
        cases splitFuel c cs k rest <;> simp

theorem pySplitL_append_sep (c : Char) (cs : List Char) (p t : List Char)
    (hp : c ∉ p) :
    pySplitL (c :: cs) (p ++ (c :: cs) ++ t) = p :: pySplitL (c :: cs) t := by
  induction p with
  | nil =>
    show splitFuel c cs ((cs ++ t).length + 1) (c :: (cs ++ t))
        = [] :: pySplitL (c :: cs) t
    rw [show splitFuel c cs ((cs ++ t).length + 1) (c :: (cs ++ t))
        = [] :: splitFuel c cs (cs ++ t).length ((cs ++ t).drop cs.length) from by
      simp [splitFuel, isPrefixOf_self_app]]
    rw [List.drop_left]
    show _ = [] :: splitFuel c cs t.length t
    rw [splitFuel_congr c cs (cs ++ t).length t.length t
      (by rw [List.length_append]; omega) le_rfl]
  | cons a p ih =>
    have hac : (c == a) = false := by
      cases hceq : (c == a) with
      | false => rfl
      | true => exact absurd (List.mem_cons.mpr (Or.inl (eq_of_beq hceq))) hp
    have hp2 : c ∉ p := fun hmem => hp (List.mem_cons_of_mem a hmem)
    show splitFuel c cs ((p ++ (c :: cs) ++ t).length + 1)
        (a :: (p ++ (c :: cs) ++ t)) = (a :: p) :: pySplitL (c :: cs) t
    rw [show splitFuel c cs ((p ++ (c :: cs) ++ t).length + 1)
          (a :: (p ++ (c :: cs) ++ t))
        = (match splitFuel c cs (p ++ (c :: cs) ++ t).length (p ++ (c :: cs) ++ t) with
           | [] => [[a]]
           | t2 :: ts => (a :: t2) :: ts) from by
      simp [splitFuel, List.isPrefixOf, hac]]
    rw [show splitFuel c cs (p ++ (c :: cs) ++ t).length (p ++ (c :: cs) ++ t)
        = pySplitL (c :: cs) (p ++ (c :: cs) ++ t) from rfl]
    rw [ih hp2]

theorem pySplitL_no_sep (c : Char) (cs p : List Char) (hp : c ∉ p) :
    pySplitL (c :: cs) p = [p] := by
  induction p with
  | nil => rfl
  | cons a p ih =>
    have hac : (c == a) = false := by
      cases hceq : (c == a) with
      | false => rfl
      | true => exact absurd (List.mem_cons.mpr (Or.inl (eq_of_beq hceq))) hp
    have hp2 : c ∉ p := fun hmem => hp (List.mem_cons_of_mem a hmem)
    show splitFuel c cs (p.length + 1) (a :: p) = [a :: p]
    rw [show splitFuel c cs (p.length + 1) (a :: p)
        = (match splitFuel c cs p.length p with
           | [] => [[a]]
           | t2 :: ts => (a :: t2) :: ts) from by
      simp [splitFuel, List.isPrefixOf, hac]]
    rw [show splitFuel c cs p.length p = pySplitL (c :: cs) p from rfl]
    rw [ih hp2]

theorem pySplitL_joinL (c : Char) (cs : List Char) (parts : List (List Char))
    (hne : parts ≠ []) (h : ∀ p ∈ parts, c ∉ p) :
    pySplitL (c :: cs) (joinL (c :: cs) parts) = parts := by
  induction parts with
  | nil => exact absurd rfl hne
  | cons p ps ih =>
    cases ps with
    | nil => exact pySplitL_no_sep c cs p (h p (List.mem_cons_self _ _))
    | cons q ps2 =>
      show pySplitL (c :: cs) (p ++ (c :: cs) ++ joinL (c :: cs) (q :: ps2))
          = p :: q :: ps2
      rw [pySplitL_append_sep c cs p _ (h p (List.mem_cons_self _ _))]
      rw [ih (by simp) (fun x hx => h x (List.mem_cons_of_mem p hx))]

/-! ## Inversion of `stages` and length bookkeeping -/

theorem stages_inv (id_sequences : PyVal) (prompt_list term_mappings : String)
    (mirror_first_prompt auto_step_ids manual_ids mirror_first_id : Bool)
    (manual_ids_list : String) (increment_base : Int)
    (placeholder_token prompt_delimiter : String) (st : ProcState)
    (h : stages id_sequences prompt_list term_mappings
      mirror_first_prompt auto_step_ids manual_ids mirror_first_id
      manual_ids_list increment_base placeholder_token prompt_delimiter
      = Except.ok st) :
    ∃ parts seq0 forced,
      pySplitSep prompt_delimiter.data prompt_list.data = Except.ok parts
      ∧ parse_list id_sequences = Except.ok seq0
      ∧ parse_manual_ids manual_ids_list = Except.ok forced
      ∧ st = stagesCore parts seq0 forced term_mappings
          mirror_first_prompt auto_step_ids manual_ids mirror_first_id
          increment_base placeholder_token := by
  cases e1 : pySplitSep prompt_delimiter.data prompt_list.data with
  | error u =>
    unfold stages at h
    rw [e1, exceptBindErr] at h
    exact Except.noConfusion h
  | ok parts =>
    cases e2 : parse_list id_sequences with
    | error u =>
      unfold stages at h
      rw [e1, exceptBindOk, e2, exceptBindErr] at h
      exact Except.noConfusion h
    | ok seq0 =>
      cases e3 : parse_manual_ids manual_ids_list with
      | error u =>
        unfold stages at h
        rw [e1, exceptBindOk, e2, exceptBindOk, e3, exceptBindErr] at h
        exact Except.noConfusion h
      | ok forced =>
        unfold stages at h
        rw [e1, exceptBindOk, e2, exceptBindOk, e3, exceptBindOk] at h
        exact ⟨parts, seq0, forced, rfl, rfl, rfl, (Except.ok.inj h).symm⟩

theorem pySplitSep_parts_ne_nil (sep s : List Char) (parts : List (List Char))
    (h : pySplitSep sep s = Except.ok parts) : parts ≠ [] := by
  cases sep with
  | nil => exact Except.noConfusion h
  | cons c cs =>
    have : splitFuel c cs s.length s = parts := Except.ok.inj h
    exact this ▸ splitFuel_ne_nil c cs s.length s

theorem mirror_length (ll : List (List IdVal)) (e : Bool) :
    (mirror_first_id_across_slots ll e).length = ll.length := by
  unfold mirror_first_id_across_slots
  cases e with
  | false => rfl
  | true =>
    cases ll with
    | nil => rfl
    | cons first rest =>
      cases first with
      | nil => rfl
      | cons fid tl => simp [List.length_map]

theorem autoStep_length (b : Int) (ll : List (List IdVal)) :
    (autoStep b ll).length = ll.length := by
  unfold autoStep
  simp [List.length_map, List.enum_length]

theorem manualOverride_length (ll : List (List IdVal)) (forced : List Int) :
    (manualOverride ll forced).length = ll.length := by
  unfold manualOverride
  simp

theorem padSeq_length (seq : List Int) (n : Nat) : n ≤ (padSeq seq n).length := by
  unfold padSeq
  simp [List.length_append, List.length_replicate, List.length_map]
  omega

theorem mkIdLists_length (seqP : List (Option Int)) (n : Nat)
    (h : n ≤ seqP.length) : (mkIdLists seqP n).length = n := by
  unfold mkIdLists
  simp [List.length_take]
  omega

theorem mirrorPrompts_length (parts : List (List Char)) :
    (mirrorPrompts parts).length = parts.length := by
  unfold mirrorPrompts
  cases parts with
  | nil => rfl
  | cons h t => simp [List.length_replicate]

theorem stagesCore_final_length (ps : List (List Char)) (s0 f : List Int)
    (tm : String) (b1 b2 b3 b4 : Bool) (ib : Int) (tok : String) :
    (stagesCore ps s0 f tm b1 b2 b3 b4 ib tok).idListsFinal.length = ps.length := by
  cases b3 <;> cases b2 <;>
    simp [stagesCore, manualOverride_length, autoStep_length, mirror_length,
      mkIdLists_length (padSeq s0 ps.length) ps.length (padSeq_length s0 ps.length)]

theorem stagesCore_resolved_length (ps : List (List Char)) (s0 f : List Int)
    (tm : String) (b1 b2 b3 b4 : Bool) (ib : Int) (tok : String) :
    (stagesCore ps s0 f tm b1 b2 b3 b4 ib tok).resolved.length = ps.length := by
  cases b3 <;> cases b2 <;> cases b1 <;>
    simp [stagesCore, resolveAll, List.length_zip, List.length_map,
      manualOverride_length, autoStep_length, mirror_length, mirrorPrompts_length,
      mkIdLists_length (padSeq s0 ps.length) ps.length (padSeq_length s0 ps.length)]

/-! ## C3: slot count of the joined output -/

/-- C3 counterexample: with `prompt_delimiter = ","` and the single template
`"a;;;;;b"`, `num_slots = 1` but splitting the first output on `;;;;;`
yields 2 segments. -/
theorem c3_counterexample_delimiter_mismatch :
    (process PyVal.none "a;;;;;b" "" false false false false "" 0 "[a1]" ",").map
        (fun tr => (pySplitL fiveSemis tr.1.data).length) = Except.ok 2
    ∧ (pySplitSep ",".data "a;;;;;b".data).map List.length = Except.ok 1 :=
  ⟨rfl, rfl⟩

/-- C3 (amended): splitting the first output string on `;;;;;` yields
exactly `num_slots` segments — the number of segments of `prompt_list`
split on `prompt_delimiter` — PROVIDED no resolved per-slot string contains
the character `;`; in general a replacement or a delimiter-mismatched
template can insert extra `;;;;;` occurrences and produce more segments. -/
theorem c3_split_count (id_sequences : PyVal) (prompt_list term_mappings : String)
    (mirror_first_prompt auto_step_ids manual_ids mirror_first_id : Bool)
    (manual_ids_list : String) (increment_base : Int)
    (placeholder_token prompt_delimiter : String) (st : ProcState)
    (hst : stages id_sequences prompt_list term_mappings
      mirror_first_prompt auto_step_ids manual_ids mirror_first_id
      manual_ids_list increment_base placeholder_token prompt_delimiter
      = Except.ok st)
    (hsemi : ∀ p ∈ st.resolved, ';' ∉ p) :
    (process id_sequences prompt_list term_mappings
      mirror_first_prompt auto_step_ids manual_ids mirror_first_id
      manual_ids_list increment_base placeholder_token prompt_delimiter).map
        (fun tr => (pySplitL fiveSemis tr.1.data).length)
      = Except.ok st.strParts0.length := by
  obtain ⟨parts, seq0, forced, e1, e2, e3, hsteq⟩ := stages_inv _ _ _ _ _ _ _ _ _ _ _ _ hst
  subst hsteq
  have hgood := goodSlots_stagesCore parts seq0 forced term_mappings
    mirror_first_prompt auto_step_ids manual_ids mirror_first_id
    increment_base placeholder_token
  obtain ⟨prim, hprim⟩ := mapExcept_ok_of
    (primaryEntry (stagesCore parts seq0 forced term_mappings
      mirror_first_prompt auto_step_ids manual_ids mirror_first_id
      increment_base placeholder_token).artistMap)
    (stagesCore parts seq0 forced term_mappings
      mirror_first_prompt auto_step_ids manual_ids mirror_first_id
      increment_base placeholder_token).idListsFinal
    (fun l hl => primaryEntry_ok_of_good _ l (hgood l hl))
  rw [process_eq_ok _ _ _ _ _ _ _ _ _ _ _ _ prim hst hprim]
  show Except.ok (pySplitL fiveSemis (joinL fiveSemis
    (stagesCore parts seq0 forced term_mappings
      mirror_first_prompt auto_step_ids manual_ids mirror_first_id
      increment_base placeholder_token).resolved)).length = _
  have hlen : (stagesCore parts seq0 forced term_mappings
      mirror_first_prompt auto_step_ids manual_ids mirror_first_id
      increment_base placeholder_token).resolved.length = parts.length :=
    stagesCore_resolved_length parts seq0 forced term_mappings
      mirror_first_prompt auto_step_ids manual_ids mirror_first_id
      increment_base placeholder_token
  have hne : (stagesCore parts seq0 forced term_mappings
      mirror_first_prompt auto_step_ids manual_ids mirror_first_id
      increment_base placeholder_token).resolved ≠ [] := by
    apply List.ne_nil_of_length_pos
    rw [hlen]
    exact List.length_pos.mpr (pySplitSep_parts_ne_nil _ _ parts e1)
  rw [show fiveSemis = ';' :: [';', ';', ';', ';'] from rfl]
  rw [pySplitL_joinL ';' [';', ';', ';', ';'] _ hne hsemi]
  rw [hlen]
  rfl

theorem c3_split_count_witness :
    stages PyVal.none "x;;;;;y" "" false false false false "" 0 "[a1]" ";;;;;"
      = Except.ok (stagesCore [['x'], ['y']] [] [] "" false false false false 0 "[a1]")
    ∧ (∀ p ∈ (stagesCore [['x'], ['y']] [] [] "" false false false false 0 "[a1]").resolved,
        ';' ∉ p)
    ∧ (process PyVal.none "x;;;;;y" "" false false false false "" 0 "[a1]" ";;;;;").map
        (fun tr => (pySplitL fiveSemis tr.1.data).length)
      = Except.ok (stagesCore [['x'], ['y']] [] [] "" false false false false 0 "[a1]").strParts0.length :=
  ⟨rfl, by decide,
    c3_split_count PyVal.none "x;;;;;y" "" false false false false "" 0 "[a1]" ";;;;;"
      (stagesCore [['x'], ['y']] [] [] "" false false false false 0 "[a1]") rfl (by decide)⟩

/-! ## C8: the primary-identifier display string -/

/-- Modelled from the spec (C8 / section 4.5 step 10), for comparison with
the source's `primaryEntry`: the sentinel when the slot's identifier list
is empty or its primary entry is the sentinel, else
`"<integer>_<resolvedName>"` with the name falling back to the sentinel
when the integer is absent from the mapping.  (A non-sentinel string
primary is outside the spec's data model and never reachable; this
definition maps it to the sentinel.) -/
def primarySpecEntry (m : List (Int × List Char)) : List IdVal → List Char
  | [] => notFoundChars
  | IdVal.int n :: _ => (toString n).data ++ '_' :: dictGet m n notFoundChars
  | IdVal.str _ :: _ => notFoundChars

theorem primaryEntry_eq_spec (m : List (Int × List Char)) (l : List IdVal)
    (h : ∀ v ∈ l, GoodVal v) :
    primaryEntry m l = Except.ok (primarySpecEntry m l) := by
  cases l with
  | nil => rfl
  | cons v t =>
    rcases h v (List.mem_cons_self v t) with ⟨n, rfl⟩ | hnf
    · simp [primaryEntry, primarySpecEntry, idIntE, idRepr]
    · subst hnf
      simp [primaryEntry, primarySpecEntry]

/-- C8: the third output string is the `;`-join of one display entry per
slot, where each entry is the sentinel for an empty or sentinel-headed
slot and `"<integer>_<resolvedName>"` otherwise, the name falling back to
the sentinel when the integer is absent from the mapping. -/
theorem c8_primary_ids (id_sequences : PyVal) (prompt_list term_mappings : String)
    (mirror_first_prompt auto_step_ids manual_ids mirror_first_id : Bool)
    (manual_ids_list : String) (increment_base : Int)
    (placeholder_token prompt_delimiter : String) (st : ProcState)
    (hst : stages id_sequences prompt_list term_mappings
      mirror_first_prompt auto_step_ids manual_ids mirror_first_id
      manual_ids_list increment_base placeholder_token prompt_delimiter
      = Except.ok st) :
    mapExcept (primaryEntry st.artistMap) st.idListsFinal
      = Except.ok (st.idListsFinal.map (primarySpecEntry st.artistMap))
    ∧ (process id_sequences prompt_list term_mappings
        mirror_first_prompt auto_step_ids manual_ids mirror_first_id
        manual_ids_list increment_base placeholder_token prompt_delimiter).map
          (fun tr => tr.2.2)
      = Except.ok (String.mk (joinL [';']
          (st.idListsFinal.map (primarySpecEntry st.artistMap)))) := by
  obtain ⟨parts, seq0, forced, e1, e2, e3, hsteq⟩ := stages_inv _ _ _ _ _ _ _ _ _ _ _ _ hst
  subst hsteq
  have hgood := goodSlots_stagesCore parts seq0 forced term_mappings
    mirror_first_prompt auto_step_ids manual_ids mirror_first_id
    increment_base placeholder_token
  have hmap := mapExcept_eq_map
    (primaryEntry (stagesCore parts seq0 forced term_mappings
      mirror_first_prompt auto_step_ids manual_ids mirror_first_id
      increment_base placeholder_token).artistMap)
    (primarySpecEntry (stagesCore parts seq0 forced term_mappings
      mirror_first_prompt auto_step_ids manual_ids mirror_first_id
      increment_base placeholder_token).artistMap)
    (stagesCore parts seq0 forced term_mappings
      mirror_first_prompt auto_step_ids manual_ids mirror_first_id
      increment_base placeholder_token).idListsFinal
    (fun l hl => primaryEntry_eq_spec _ l (hgood l hl))
  refine ⟨hmap, ?_⟩
  rw [process_eq_ok _ _ _ _ _ _ _ _ _ _ _ _ _ hst hmap]
  rfl

theorem c8_primary_ids_witness :
    stages (PyVal.list [PyVal.int 5, PyVal.int 7]) "A[a1];;;;;B[a1]" "5_Alice\n7_Bob"
        false false false false "" 0 "[a1]" ";;;;;"
      = Except.ok (stagesCore ["A[a1]".data, "B[a1]".data] [5, 7] [] "5_Alice\n7_Bob"
          false false false false 0 "[a1]")
    ∧ (process (PyVal.list [PyVal.int 5, PyVal.int 7]) "A[a1];;;;;B[a1]" "5_Alice\n7_Bob"
          false false false false "" 0 "[a1]" ";;;;;").map (fun tr => tr.2.2)
      = Except.ok "5_Alice;7_Bob" :=
  ⟨rfl,
    ((c8_primary_ids (PyVal.list [PyVal.int 5, PyVal.int 7]) "A[a1];;;;;B[a1]"
        "5_Alice\n7_Bob" false false false false "" 0 "[a1]" ";;;;;"
        (stagesCore ["A[a1]".data, "B[a1]".data] [5, 7] [] "5_Alice\n7_Bob"
          false false false false 0 "[a1]") rfl).2).trans (by rfl)⟩
